import Mathlib

/-
Verification of the execute-sync replication pipeline and view compiler.

The Go source is shallowly embedded as follows:

* A JSON value (Go `interface{}` produced by `encoding/json`) is the
  inductive `Value`.  Go maps (`map[string]interface{}`) are embedded as
  association lists `List (String × Value)` carrying an explicit iteration
  order; a Go map corresponds to the multiset of entries (any two
  permutations with the same distinct keys denote the same map, and the
  list order models the incidental iteration order of one `range` loop).
* The chunking loop of `snowflake.go` (`Upload`, lines 249-282) and
  `sqlite.go` (`Upload`, lines 111-129) is `chunkDocument`.
* The size policy of `snowflake.go` (`validateJSONSize`, lines 42-68 and
  the per-chunk loop, lines 286-346) is `validateJSONSize`/`processChunk`.
* The envelope validation (`validateRequiredFields`, lines 71-84) is
  `validateRequiredFields`.
* The per-record upload loop of `snowflake.go` (lines 221-362, 400-404)
  is `processRecord`/`uploadLoop`/`Upload`.
* The replication loop of `main.go` (`fetchAndProcessDocuments`,
  lines 146-254, `saveLastSyncDate`, `sync`) is `go_`/`syncLoop`.
* The view compiler of `snowflake.go` (`create_view`, lines 528-592) is
  `cvFields`/`create_view`, and the schema pruning of `schema.go`
  (`filterInactiveDocumentFields`, lines 116-139) keeps its name.
-/

namespace ExecuteSync

/-- A JSON value as decoded by Go `encoding/json` into `interface{}`:
null, booleans, numbers, strings, arrays (`[]interface{}`) and objects
(`map[string]interface{}`).  Numbers are embedded as `Int` (the claims
under verification never compute with the numeric payload, only carry
it). -/
inductive Value where
  | vnull : Value
  | vbool : Bool → Value
  | vnum : Int → Value
  | vstr : String → Value
  | vlist : List Value → Value
  | vmap : List (String × Value) → Value

/-- Association-list lookup, the embedding of a Go map read `m[k]`
(`none` = key absent, `some Value.vnull` = key present with JSON null). -/
def lookupField : List (String × Value) → String → Option Value
  | [], _ => none
  | (k, v) :: rest, f => if k = f then some v else lookupField rest f

/-- One slice step of the Go loop
`for i := 0; i < len(list); i += chunkSize` from `snowflake.go` line 263
(resp. `sqlite.go` line 115): the i-th slice is `list[i : i+chunkSize]`.
The fuel argument bounds the number of loop iterations; `l.length` fuel
is enough whenever `0 < c` (for `c = 0` the Go loop would not
terminate, and every theorem below assumes `0 < c`). -/
def slicesOfAux (c : Nat) : Nat → List Value → List (List Value)
  | 0, _ => []
  | _ + 1, [] => []
  | fuel + 1, x :: xs => ((x :: xs).take c) :: slicesOfAux c fuel ((x :: xs).drop c)

/-- All consecutive slices of at most `c` elements of `l`, in order. -/
def slicesOf (c : Nat) (l : List Value) : List (List Value) :=
  slicesOfAux c l.length l

/-- Whether a top-level value triggers chunking: it is a JSON array with
`len(list) > chunkSize` (`snowflake.go` lines 254-256). -/
def isOversized (c : Nat) : Value → Bool
  | Value.vlist l => decide (c < l.length)
  | _ => false

/-- The synthetic chunks produced for one top-level field `key ↦ v`:
for an oversized array, one record `{DOCUMENT_ID: docId, key: slice}`
per slice (`snowflake.go` lines 263-273); otherwise nothing. -/
def fieldChunks (docId : Value) (c : Nat) (key : String) (v : Value) :
    List (List (String × Value)) :=
  match v with
  | Value.vlist list =>
    if decide (c < list.length) then
      (slicesOf c list).map (fun s => [("DOCUMENT_ID", docId), (key, Value.vlist s)])
    else []
  | _ => []

/-- The synthetic chunks accumulated by the `for key, value := range data`
loop (`snowflake.go` lines 252-279): the per-field chunks of each field,
concatenated in iteration order. -/
def syntheticChunks (docId : Value) (c : Nat) (doc : List (String × Value)) :
    List (List (String × Value)) :=
  (doc.map (fun p => fieldChunks docId c p.1 p.2)).flatten

/-- The chunker: the body of the upload loop in `snowflake.go`
lines 249-282 (identical in `sqlite.go` lines 111-129).  It scans the
top-level fields in iteration order, emits the synthetic chunks of every
oversized array field, deletes those fields from the base record
(`delete(data, key)`), and returns the base record first followed by the
synthetic chunks (`chunks = append([...]{data}, chunks...)`). -/
def chunkDocument (c : Nat) (doc : List (String × Value)) :
    List (List (String × Value)) :=
  let docId := (lookupField doc "DOCUMENT_ID").getD Value.vnull
  let base := doc.filter (fun p => !(isOversized c p.2))
  base :: syntheticChunks docId c doc

/-- The array slice stored under field `f` in one chunk (empty if the
chunk holds no array slice for `f`). -/
def sliceContent (f : String) (chunk : List (String × Value)) : List Value :=
  match lookupField chunk f with
  | some (Value.vlist s) => s
  | _ => []

/-- Concatenation, in chunk order, of all array slices stored under
field `f` in a list of chunks. -/
def tailSlices (f : String) (chunks : List (List (String × Value))) : List Value :=
  (chunks.map (sliceContent f)).flatten

theorem flatten_slicesOfAux (c : Nat) (hc : 0 < c) :
    ∀ (fuel : Nat) (l : List Value), l.length ≤ fuel →
      (slicesOfAux c fuel l).flatten = l := by
  intro fuel
  induction fuel with
  | zero =>
    intro l hl
    have : l = [] := List.eq_nil_of_length_eq_zero (Nat.le_zero.mp hl)
    subst this
    rfl
  | succ n ih =>
    intro l hl
    match l with
    | [] => rfl
    | x :: xs =>
      have hdrop : ((x :: xs).drop c).length ≤ n := by
        rw [List.length_drop]
        have : (x :: xs).length = xs.length + 1 := rfl
        omega
      calc (slicesOfAux c (n + 1) (x :: xs)).flatten
          = (x :: xs).take c ++ (slicesOfAux c n ((x :: xs).drop c)).flatten := by
            rfl
        _ = (x :: xs).take c ++ (x :: xs).drop c := by rw [ih _ hdrop]
        _ = x :: xs := List.take_append_drop c (x :: xs)

theorem flatten_slicesOf (c : Nat) (hc : 0 < c) (l : List Value) :
    (slicesOf c l).flatten = l :=
  flatten_slicesOfAux c hc l.length l (Nat.le_refl _)

theorem mem_slicesOfAux (c : Nat) (hc : 0 < c) :
    ∀ (fuel : Nat) (l s : List Value), s ∈ slicesOfAux c fuel l →
      s.length ≤ c ∧ s ≠ [] := by
  intro fuel
  induction fuel with
  | zero => intro l s hs; cases hs
  | succ n ih =>
    intro l s hs
    cases l with
    | nil => cases hs
    | cons x xs =>
      simp only [slicesOfAux] at hs
      rcases List.mem_cons.mp hs with hs | hs
      · subst hs
        constructor
        · rw [List.length_take]; exact Nat.min_le_left _ _
        · cases c with
          | zero => omega
          | succ m => simp
      · exact ih _ _ hs

theorem mem_slicesOf (c : Nat) (hc : 0 < c) (l s : List Value)
    (hs : s ∈ slicesOf c l) : s.length ≤ c ∧ s ≠ [] :=
  mem_slicesOfAux c hc l.length l s hs

theorem lookupField_eq_some_of_mem :
    ∀ (doc : List (String × Value)) (f : String) (v : Value),
      (doc.map Prod.fst).Nodup → (f, v) ∈ doc → lookupField doc f = some v := by
  intro doc
  induction doc with
  | nil => intro f v _ hm; cases hm
  | cons p rest ih =>
    intro f v hnd hm
    obtain ⟨g, w⟩ := p
    rw [List.map_cons, List.nodup_cons] at hnd
    rcases List.mem_cons.mp hm with hm | hm
    · rw [Prod.mk.injEq] at hm
      simp [lookupField, hm.1, hm.2]
    · have hfm : f ∈ List.map Prod.fst rest := List.mem_map.mpr ⟨(f, v), hm, rfl⟩
      have hg : g ≠ f := fun h => hnd.1 (h.symm ▸ hfm)
      simp only [lookupField, if_neg hg]
      exact ih f v hnd.2 hm

theorem lookupField_eq_none_iff :
    ∀ (doc : List (String × Value)) (f : String),
      lookupField doc f = none ↔ f ∉ doc.map Prod.fst := by
  intro doc
  induction doc with
  | nil => intro f; simp [lookupField]
  | cons p rest ih =>
    intro f
    obtain ⟨g, w⟩ := p
    by_cases hg : g = f
    · simp [lookupField, hg]
    · rw [lookupField, if_neg hg, ih f, List.map_cons]
      simp only [List.mem_cons, not_or]
      constructor
      · intro h
        exact ⟨fun hfg => hg hfg.symm, h⟩
      · intro h
        exact h.2

theorem mem_of_lookupField_eq_some :
    ∀ (doc : List (String × Value)) (f : String) (v : Value),
      lookupField doc f = some v → (f, v) ∈ doc := by
  intro doc
  induction doc with
  | nil => intro f v h; cases h
  | cons p rest ih =>
    intro f v h
    obtain ⟨g, w⟩ := p
    by_cases hg : g = f
    · rw [lookupField, if_pos hg] at h
      obtain rfl : w = v := Option.some.inj h
      exact hg ▸ List.mem_cons_self _ _
    · rw [lookupField, if_neg hg] at h
      exact List.mem_cons_of_mem _ (ih f v h)

theorem tailSlices_nil (f : String) : tailSlices f [] = [] := rfl

theorem tailSlices_cons (f : String) (ch : List (String × Value))
    (chunks : List (List (String × Value))) :
    tailSlices f (ch :: chunks) = sliceContent f ch ++ tailSlices f chunks := rfl

theorem tailSlices_append (f : String) (a b : List (List (String × Value))) :
    tailSlices f (a ++ b) = tailSlices f a ++ tailSlices f b := by
  simp [tailSlices]

theorem sliceContent_pair (f g : String) (docId : Value) (s : List Value)
    (hf : f ≠ "DOCUMENT_ID") :
    sliceContent f [("DOCUMENT_ID", docId), (g, Value.vlist s)] =
      if g = f then s else [] := by
  simp only [sliceContent, lookupField]
  rw [if_neg (Ne.symm hf)]
  by_cases hg : g = f
  · simp only [if_pos hg]
  · simp only [if_neg hg]

theorem tailSlices_map_mk (f g : String) (docId : Value) (hf : f ≠ "DOCUMENT_ID") :
    ∀ slices : List (List Value),
      tailSlices f
          (slices.map (fun s => [("DOCUMENT_ID", docId), (g, Value.vlist s)])) =
        if g = f then slices.flatten else [] := by
  intro slices
  induction slices with
  | nil => simp [tailSlices]
  | cons s rest ih =>
    rw [List.map_cons, tailSlices_cons, ih, sliceContent_pair f g docId s hf]
    by_cases hg : g = f <;> simp [hg]

theorem tailSlices_fieldChunks_ne (f g : String) (docId : Value) (c : Nat)
    (v : Value) (hf : f ≠ "DOCUMENT_ID") (hg : g ≠ f) :
    tailSlices f (fieldChunks docId c g v) = [] := by
  cases v <;> simp only [fieldChunks, tailSlices_nil]
  split
  · rw [tailSlices_map_mk f g docId hf, if_neg hg]
  · rfl

theorem syntheticChunks_cons (docId : Value) (c : Nat) (p : String × Value)
    (rest : List (String × Value)) :
    syntheticChunks docId c (p :: rest) =
      fieldChunks docId c p.1 p.2 ++ syntheticChunks docId c rest := by
  simp [syntheticChunks]

theorem tailSlices_syntheticChunks_not_mem (f : String) (docId : Value) (c : Nat)
    (hf : f ≠ "DOCUMENT_ID") :
    ∀ doc : List (String × Value), f ∉ doc.map Prod.fst →
      tailSlices f (syntheticChunks docId c doc) = [] := by
  intro doc
  induction doc with
  | nil => intro _; rfl
  | cons p rest ih =>
    intro hnm
    obtain ⟨g, v⟩ := p
    rw [List.map_cons, List.mem_cons] at hnm
    push_neg at hnm
    rw [syntheticChunks_cons, tailSlices_append,
      tailSlices_fieldChunks_ne f g docId c v hf (fun h => hnm.1 h.symm),
      ih hnm.2]
    rfl

/-- Per-field content of the synthetic chunks: for every field `f`, the
concatenation (in chunk order) of the slices stored under `f` is the
original array when `f` holds an oversized array, and empty otherwise. -/
theorem tailSlices_syntheticChunks (docId : Value) (c : Nat) (hc : 0 < c)
    (f : String) (hf : f ≠ "DOCUMENT_ID") :
    ∀ doc : List (String × Value), (doc.map Prod.fst).Nodup →
      tailSlices f (syntheticChunks docId c doc) =
        match lookupField doc f with
        | some (Value.vlist xs) => if c < xs.length then xs else []
        | _ => [] := by
  intro doc
  induction doc with
  | nil => intro _; rfl
  | cons p rest ih =>
    intro hnd
    obtain ⟨g, v⟩ := p
    rw [List.map_cons, List.nodup_cons] at hnd
    rw [syntheticChunks_cons, tailSlices_append]
    by_cases hg : g = f
    · rw [tailSlices_syntheticChunks_not_mem f docId c hf rest (hg ▸ hnd.1),
        List.append_nil]
      simp only [lookupField, if_pos hg]
      cases v with
      | vlist xs =>
        show tailSlices f (fieldChunks docId c g (Value.vlist xs)) =
          if c < xs.length then xs else []
        simp only [fieldChunks]
        split
        · rw [tailSlices_map_mk f g docId hf, if_pos hg]
          rename_i hlen
          rw [flatten_slicesOf c hc xs, if_pos (of_decide_eq_true hlen)]
        · rename_i hlen
          rw [if_neg (fun h => hlen (decide_eq_true h))]
          rfl
      | vnull => rfl
      | vbool b => rfl
      | vnum n => rfl
      | vstr s => rfl
      | vmap m => rfl
    · rw [tailSlices_fieldChunks_ne f g docId c v hf hg, List.nil_append,
        ih hnd.2]
      simp only [lookupField, if_neg hg]

theorem chunkDocument_tail (c : Nat) (doc : List (String × Value)) :
    (chunkDocument c doc).tail =
      syntheticChunks ((lookupField doc "DOCUMENT_ID").getD Value.vnull) c doc := rfl

theorem chunkDocument_headD (c : Nat) (doc : List (String × Value)) :
    (chunkDocument c doc).headD [] =
      doc.filter (fun p => !(isOversized c p.2)) := rfl

theorem lookupField_perm (d1 d2 : List (String × Value)) (f : String)
    (hperm : d1.Perm d2) (hnd : (d1.map Prod.fst).Nodup) :
    lookupField d1 f = lookupField d2 f := by
  have hnd2 : (d2.map Prod.fst).Nodup := (hperm.map Prod.fst).nodup hnd
  cases h : lookupField d1 f with
  | some v =>
    exact (lookupField_eq_some_of_mem d2 f v hnd2
      (hperm.mem_iff.mp (mem_of_lookupField_eq_some d1 f v h))).symm
  | none =>
    have hnm := (lookupField_eq_none_iff d1 f).mp h
    symm
    rw [lookupField_eq_none_iff]
    intro hmem
    exact hnm ((hperm.map Prod.fst).mem_iff.mpr hmem)

/-- C2: for every document and every top-level array field of length
greater than `chunkSize`, the chunker produces chunk 0 holding exactly
the fields of the document that are not oversized arrays, plus synthetic
chunks each of which is exactly a record of `DOCUMENT_ID` and one slice
of one field with at most `chunkSize` (and at least one) elements, and
concatenating the slices stored under the oversized field in the chunks
after chunk 0, in chunk order, reproduces the original array exactly. -/
theorem C2_chunk_roundtrip (c : Nat) (doc : List (String × Value)) (f : String)
    (xs : List Value) (hc : 0 < c) (hnd : (doc.map Prod.fst).Nodup)
    (hf : f ≠ "DOCUMENT_ID") (hmem : (f, Value.vlist xs) ∈ doc)
    (hlen : c < xs.length) :
    (∀ p : String × Value,
        p ∈ (chunkDocument c doc).headD [] ↔ p ∈ doc ∧ isOversized c p.2 = false)
    ∧ (∀ ch ∈ (chunkDocument c doc).tail, ∃ g s,
        ch = [("DOCUMENT_ID", (lookupField doc "DOCUMENT_ID").getD Value.vnull),
              (g, Value.vlist s)]
        ∧ s.length ≤ c ∧ s ≠ [])
    ∧ tailSlices f ((chunkDocument c doc).tail) = xs := by
  refine ⟨?_, ?_, ?_⟩
  · intro p
    rw [chunkDocument_headD, List.mem_filter, Bool.not_eq_true']
  · intro ch hch
    rw [chunkDocument_tail] at hch
    obtain ⟨l, hl, hchl⟩ := List.mem_flatten.mp hch
    obtain ⟨p, hp, rfl⟩ := List.mem_map.mp hl
    obtain ⟨g, v⟩ := p
    cases v with
    | vlist ys =>
      simp only [fieldChunks] at hchl
      by_cases hy : c < ys.length
      · rw [if_pos (decide_eq_true hy)] at hchl
        obtain ⟨s, hs, rfl⟩ := List.mem_map.mp hchl
        obtain ⟨hsl, hsn⟩ := mem_slicesOf c hc ys s hs
        exact ⟨g, s, rfl, hsl, hsn⟩
      · rw [if_neg (fun h => hy (of_decide_eq_true h))] at hchl
        cases hchl
    | vnull => cases hchl
    | vbool b => cases hchl
    | vnum n => cases hchl
    | vstr s => cases hchl
    | vmap m => cases hchl
  · rw [chunkDocument_tail,
      tailSlices_syntheticChunks _ c hc f hf doc hnd,
      lookupField_eq_some_of_mem doc f (Value.vlist xs) hnd hmem]
    exact if_pos hlen

/-- Example document used in witnesses: an envelope plus one oversized
array field `NOTES` of 5 elements (chunk size 2 splits it 2/2/1). -/
def docW2 : List (String × Value) :=
  [("DOCUMENT_ID", Value.vstr "W1"),
   ("NOTES", Value.vlist
     [Value.vnum 1, Value.vnum 2, Value.vnum 3, Value.vnum 4, Value.vnum 5])]

/-- Witness for C2 at a concrete document: the slices of `NOTES` found
in chunks after chunk 0 concatenate back to the original 5 elements. -/
theorem C2_chunk_roundtrip_witness :
    tailSlices "NOTES" ((chunkDocument 2 docW2).tail) =
      [Value.vnum 1, Value.vnum 2, Value.vnum 3, Value.vnum 4, Value.vnum 5] :=
  (C2_chunk_roundtrip 2 docW2 "NOTES"
    [Value.vnum 1, Value.vnum 2, Value.vnum 3, Value.vnum 4, Value.vnum 5]
    (by decide) (by decide) (by decide)
    (List.mem_cons_of_mem _ (List.mem_cons_self _ _)) (by decide)).2.2

/-- The key structure of a chunk list: each chunk reduced to its field
names in order (used to compare chunk streams without comparing opaque
payload values). -/
def chunkKeys (chunks : List (List (String × Value))) : List (List String) :=
  chunks.map (fun ch => ch.map Prod.fst)

def bigB : Value := Value.vlist [Value.vnum 1, Value.vnum 2]

def bigA : Value := Value.vlist [Value.vnum 3, Value.vnum 4]

/-- A document whose map iteration order presents field B before A. -/
def docBA : List (String × Value) :=
  [("B", bigB), ("A", bigA), ("DOCUMENT_ID", Value.vstr "D1")]

/-- The same Go map under the other iteration order: A before B. -/
def docAB : List (String × Value) :=
  [("A", bigA), ("B", bigB), ("DOCUMENT_ID", Value.vstr "D1")]

/-- C5 counterexample: the chunker is not a deterministic function of
the document alone, and its synthetic pieces are not sorted by field
name.  `docBA` and `docAB` are the same Go map (a permutation of the
same entries with distinct keys), yet the chunker emits the chunks in
different orders, following the incidental iteration order; in
particular for `docBA` the chunks of field `B` precede the chunks of
field `A`, so the output is not sorted by field name. -/
theorem C5_counterexample :
    docBA.Perm docAB
    ∧ chunkKeys (chunkDocument 1 docBA) ≠ chunkKeys (chunkDocument 1 docAB)
    ∧ chunkKeys (chunkDocument 1 docBA) =
        [["DOCUMENT_ID"], ["DOCUMENT_ID", "B"], ["DOCUMENT_ID", "B"],
         ["DOCUMENT_ID", "A"], ["DOCUMENT_ID", "A"]] :=
  ⟨List.Perm.swap ("A", bigA) ("B", bigB) [("DOCUMENT_ID", Value.vstr "D1")],
   by decide, by decide⟩

/-- C5 (amended): chunking is deterministic only as a function of the
document together with its map iteration order.  Chunk 0 always comes
first and, within each oversized field, the slices appear in slice
order, but the relative order of different fields' synthetic chunks
follows the map iteration order (not field-name sorting).  What is
independent of the iteration order is the content: for the same map
under any two iteration orders, the reconstructed per-field slice
concatenation and the membership of chunk 0 are identical. -/
theorem C5_amended_order_independence (c : Nat) (d1 d2 : List (String × Value))
    (f : String) (hc : 0 < c) (hf : f ≠ "DOCUMENT_ID") (hperm : d1.Perm d2)
    (hnd : (d1.map Prod.fst).Nodup) :
    tailSlices f ((chunkDocument c d1).tail) =
      tailSlices f ((chunkDocument c d2).tail)
    ∧ (∀ p : String × Value,
        p ∈ (chunkDocument c d1).headD [] ↔ p ∈ (chunkDocument c d2).headD []) := by
  have hnd2 : (d2.map Prod.fst).Nodup := (hperm.map Prod.fst).nodup hnd
  constructor
  · rw [chunkDocument_tail, chunkDocument_tail,
      tailSlices_syntheticChunks _ c hc f hf d1 hnd,
      tailSlices_syntheticChunks _ c hc f hf d2 hnd2,
      lookupField_perm d1 d2 f hperm hnd]
  · intro p
    rw [chunkDocument_headD, chunkDocument_headD, List.mem_filter,
      List.mem_filter, hperm.mem_iff]

/-- Witness for the amended C5 at the two iteration orders of the same
concrete map: the reconstructed content of field A is identical. -/
theorem C5_amended_witness :
    tailSlices "A" ((chunkDocument 1 docBA).tail) =
      tailSlices "A" ((chunkDocument 1 docAB).tail) :=
  (C5_amended_order_independence 1 docBA docAB "A" (by decide) (by decide)
    (List.Perm.swap ("A", bigA) ("B", bigB) [("DOCUMENT_ID", Value.vstr "D1")])
    (by decide)).1

/-! Size policy and upload statistics, from `snowflake.go`. -/

/-- 10MB - Snowflake VARIANT recommended limit (`snowflake.go` line 20). -/
def DefaultMaxJSONSize : Nat := 10 * 1024 * 1024

/-- 8MB - warn at 80 percent of limit (`snowflake.go` line 21). -/
def WarningJSONSize : Nat := 8 * 1024 * 1024

/-- 15MB - fail fast on extremely large objects (`snowflake.go` line 22). -/
def ExtremeJSONSize : Nat := 15 * 1024 * 1024

/-- The size check of `validateJSONSize` (`snowflake.go` lines 42-68):
an error is returned exactly when `size >= ExtremeJSONSize`; when
`WarningJSONSize <= size < ExtremeJSONSize` the Go code logs a warning
and returns nil, and below the warning size it returns nil silently. -/
def validateJSONSize (size : Nat) : Option String :=
  if ExtremeJSONSize ≤ size then
    some "JSON object size exceeds extreme limit"
  else none

/-- `UploadStats` (`snowflake.go` lines 31-39); `CSVWriteErrors` is
embedded as its length, the only thing the claims observe. -/
structure UploadStats where
  documentsProcessed : Nat
  chunksWritten : Nat
  chunksFailedToWrite : Nat
  largeJSONWarnings : Nat
  extremeJSONFailures : Nat
  csvWriteErrors : Nat
deriving DecidableEq

def initStats : UploadStats := ⟨0, 0, 0, 0, 0, 0⟩

/-- The per-chunk body of the upload loop (`snowflake.go` lines
286-346): `size` is the byte length of the chunk's JSON serialization
and `csvFail` tells whether the external `csvWriter.Write` call fails
for this chunk.  A chunk at or above `ExtremeJSONSize` is rejected
(counted in `extremeJSONFailures` and `csvWriteErrors`) and the loop
continues; otherwise a warning is counted at or above
`WarningJSONSize` and the chunk is written (or counted in
`chunksFailedToWrite` when the CSV write fails).  `json.Marshal`
failure (lines 288-299) is not modelled: marshalling a decoded JSON
value cannot fail. -/
def processChunk (csvFail : Bool) (st : UploadStats) (size : Nat) : UploadStats :=
  match validateJSONSize size with
  | some _ =>
    { st with
      extremeJSONFailures := st.extremeJSONFailures + 1,
      csvWriteErrors := st.csvWriteErrors + 1 }
  | none =>
    let st :=
      if WarningJSONSize ≤ size then
        { st with largeJSONWarnings := st.largeJSONWarnings + 1 }
      else st
    if csvFail then
      { st with
        chunksFailedToWrite := st.chunksFailedToWrite + 1,
        csvWriteErrors := st.csvWriteErrors + 1 }
    else
      { st with chunksWritten := st.chunksWritten + 1 }

/-- The per-chunk loop over a whole batch: a list of (serialized size,
csv-write-fails) pairs in chunk order. -/
def processChunks (st : UploadStats) (chunks : List (Nat × Bool)) : UploadStats :=
  chunks.foldl (fun s cb => processChunk cb.2 s cb.1) st

theorem processChunks_cons (st : UploadStats) (cb : Nat × Bool)
    (rest : List (Nat × Bool)) :
    processChunks st (cb :: rest) = processChunks (processChunk cb.2 st cb.1) rest :=
  rfl

theorem processChunk_stats (b : Bool) (st : UploadStats) (size : Nat) :
    processChunk b st size =
      { st with
        extremeJSONFailures := st.extremeJSONFailures +
          (if decide (ExtremeJSONSize ≤ size) = true then 1 else 0),
        csvWriteErrors := st.csvWriteErrors +
          (if ExtremeJSONSize ≤ size then 1 else if b = true then 1 else 0),
        largeJSONWarnings := st.largeJSONWarnings +
          (if decide (WarningJSONSize ≤ size ∧ size < ExtremeJSONSize) = true
            then 1 else 0),
        chunksWritten := st.chunksWritten +
          (if (decide (size < ExtremeJSONSize) && !b) = true then 1 else 0),
        chunksFailedToWrite := st.chunksFailedToWrite +
          (if (decide (size < ExtremeJSONSize) && b) = true then 1 else 0) } := by
  unfold processChunk validateJSONSize
  by_cases h1 : ExtremeJSONSize ≤ size
  · have h1n : ¬ size < ExtremeJSONSize := Nat.not_lt.mpr h1
    simp [h1, h1n]
  · have h1l : size < ExtremeJSONSize := Nat.not_le.mp h1
    by_cases h2 : WarningJSONSize ≤ size
    · cases b <;> simp [h1, h1l, h2]
    · cases b <;> simp [h1, h1l, h2]

theorem processChunks_counts : ∀ (chunks : List (Nat × Bool)) (st : UploadStats),
    (processChunks st chunks).extremeJSONFailures =
        st.extremeJSONFailures +
          chunks.countP (fun cb => decide (ExtremeJSONSize ≤ cb.1))
    ∧ (processChunks st chunks).largeJSONWarnings =
        st.largeJSONWarnings +
          chunks.countP
            (fun cb => decide (WarningJSONSize ≤ cb.1 ∧ cb.1 < ExtremeJSONSize))
    ∧ (processChunks st chunks).chunksWritten =
        st.chunksWritten +
          chunks.countP (fun cb => decide (cb.1 < ExtremeJSONSize) && !cb.2)
    ∧ (processChunks st chunks).documentsProcessed = st.documentsProcessed := by
  intro chunks
  induction chunks with
  | nil => intro st; exact ⟨rfl, rfl, rfl, rfl⟩
  | cons cb rest ih =>
    intro st
    obtain ⟨c1, c2, c3, c4⟩ := ih (processChunk cb.2 st cb.1)
    rw [processChunk_stats cb.2 st cb.1] at c1 c2 c3 c4
    refine ⟨?_, ?_, ?_, ?_⟩ <;>
      rw [processChunks_cons, processChunk_stats cb.2 st cb.1]
    · rw [c1, List.countP_cons]
      simp only []
      omega
    · rw [c2, List.countP_cons]
      simp only []
      omega
    · rw [c3, List.countP_cons]
      simp only []
      omega
    · rw [c4]

/-- C3: a serialized chunk is rejected (counted as an extreme-size
failure) iff its byte size is at least 15 MiB; below that it is written,
with a non-fatal warning counted when the size is at least 8 MiB; and
processing of the remaining chunks continues in all cases: over a whole
batch the failure / warning / written counters are exactly the counts
of the corresponding size classes, and in particular a 9 MiB chunk and
a 16 MiB chunk coexist in one batch (the former written with a warning,
the latter counted as a failure) without aborting it. -/
theorem C3_size_policy :
    (∀ size : Nat, validateJSONSize size = none ↔ size < ExtremeJSONSize)
    ∧ (∀ (st : UploadStats) (chunks : List (Nat × Bool)),
        (processChunks st chunks).extremeJSONFailures =
            st.extremeJSONFailures +
              chunks.countP (fun cb => decide (ExtremeJSONSize ≤ cb.1))
        ∧ (processChunks st chunks).largeJSONWarnings =
            st.largeJSONWarnings +
              chunks.countP
                (fun cb => decide (WarningJSONSize ≤ cb.1 ∧ cb.1 < ExtremeJSONSize))
        ∧ (processChunks st chunks).chunksWritten =
            st.chunksWritten +
              chunks.countP (fun cb => decide (cb.1 < ExtremeJSONSize) && !cb.2))
    ∧ processChunks initStats [(9 * 1024 * 1024, false), (16 * 1024 * 1024, false)] =
        { documentsProcessed := 0, chunksWritten := 1, chunksFailedToWrite := 0,
          largeJSONWarnings := 1, extremeJSONFailures := 1, csvWriteErrors := 1 } := by
  refine ⟨?_, ?_, ?_⟩
  · intro size
    by_cases h : ExtremeJSONSize ≤ size
    · simp [validateJSONSize, h, Nat.not_lt.mpr h]
    · simp [validateJSONSize, h, Nat.not_le.mp h]
  · intro st chunks
    exact ⟨(processChunks_counts chunks st).1, (processChunks_counts chunks st).2.1,
      (processChunks_counts chunks st).2.2.1⟩
  · decide

/-! Record validation and the per-record upload loop of `snowflake.go`. -/

/-- The required envelope fields (`snowflake.go` line 72). -/
def requiredFields : List String :=
  ["$TYPE", "DOCUMENT_ID", "$VERSION", "$AUTHOR_ID", "$DATE", "$DELETED"]

/-- `validateRequiredFields` (`snowflake.go` lines 71-84): returns the
error for the first required field that is missing or JSON-null, and
`none` when all six are present and non-null. -/
def validateRequiredFields (data : List (String × Value)) : Option String :=
  requiredFields.findSome? (fun field =>
    match lookupField data field with
    | none => some ("required field " ++ field ++ " is missing from document")
    | some Value.vnull => some ("required field " ++ field ++ " is null in document")
    | some _ => none)

/-- One item delivered by the `nextRecord` callback (`main.go` lines
211-226 feeding `snowflake.go` lines 221-244): a read error other than
EOF (logged and skipped), a nil record from a JSON parse failure
(skipped), or a decoded document map.  EOF is the end of the list. -/
inductive FetchItem where
  | readError : String → FetchItem
  | badJSON : FetchItem
  | record : List (String × Value) → FetchItem

/-- Loop state of `Upload`: the statistics plus the `empty_batch` flag
(`snowflake.go` lines 219, 350). -/
structure UploadState where
  stats : UploadStats
  emptyBatch : Bool
deriving DecidableEq

def initUploadState : UploadState := ⟨initStats, true⟩

/-- Processing of one decoded record (`snowflake.go` lines 240-350):
reject it if envelope validation fails (skip, continue); otherwise chunk
it, run the per-chunk loop (serialized sizes given by `marshalSize`,
external CSV write failures by `csvFail`), then increment
`DocumentsProcessed` and clear `empty_batch` regardless of the
per-chunk outcomes. -/
def processRecord (marshalSize : List (String × Value) → Nat)
    (csvFail : List (String × Value) → Bool) (chunkSize : Nat)
    (st : UploadState) (data : List (String × Value)) : UploadState :=
  match validateRequiredFields data with
  | some _ => st
  | none =>
    let chunks := chunkDocument chunkSize data
    let stats := chunks.foldl (fun s ch => processChunk (csvFail ch) s (marshalSize ch)) st.stats
    { stats := { stats with documentsProcessed := stats.documentsProcessed + 1 },
      emptyBatch := false }

/-- The record loop of `Upload` (`snowflake.go` lines 221-362): read
errors and nil records are skipped, decoded records are processed. -/
def uploadLoop (marshalSize : List (String × Value) → Nat)
    (csvFail : List (String × Value) → Bool) (chunkSize : Nat)
    (items : List FetchItem) (st : UploadState) : UploadState :=
  items.foldl (fun st item =>
    match item with
    | FetchItem.readError _ => st
    | FetchItem.badJSON => st
    | FetchItem.record d => processRecord marshalSize csvFail chunkSize st d) st

/-- The value of `Upload`: the document count together with whether the
batch was pushed to the warehouse, or an error. -/
inductive UploadResult where
  | ok : Nat → Bool → UploadResult
  | err : String → UploadResult
deriving DecidableEq

/-- `Upload` (`snowflake.go` lines 176-465): run the record loop; if
the batch stayed empty, skip the warehouse push entirely and return the
document count with no error (lines 400-404); otherwise perform the
stage PUT and pipe refresh, whose external outcome is `pushErr`, and
return the count on success. -/
def Upload (marshalSize : List (String × Value) → Nat)
    (csvFail : List (String × Value) → Bool) (chunkSize : Nat)
    (items : List FetchItem) (pushErr : Option String) : UploadResult :=
  let st := uploadLoop marshalSize csvFail chunkSize items initUploadState
  if st.emptyBatch then UploadResult.ok st.stats.documentsProcessed false
  else
    match pushErr with
    | some e => UploadResult.err e
    | none => UploadResult.ok st.stats.documentsProcessed true

/-- Whether a fetched item is a record that passes envelope validation
(exactly the items for which `DocumentsProcessed` is incremented). -/
def isProcessedRecord : FetchItem → Bool
  | FetchItem.record d => (validateRequiredFields d).isNone
  | _ => false

/-- C4: a document record in which any of the six envelope fields
$TYPE, DOCUMENT_ID, $VERSION, $AUTHOR_ID, $DATE, $DELETED is missing or
null fails envelope validation, and such a record is skipped by the
upload loop: the whole `Upload` outcome over any batch containing it is
exactly the outcome of the batch without it (processing of the rest of
the batch continues and no iteration-level error is raised). -/
theorem C4_envelope_validation (field : String) (data : List (String × Value))
    (hfield : field ∈ requiredFields)
    (hbad : lookupField data field = none ∨ lookupField data field = some Value.vnull) :
    (validateRequiredFields data).isSome = true
    ∧ ∀ (marshalSize : List (String × Value) → Nat)
        (csvFail : List (String × Value) → Bool) (chunkSize : Nat)
        (pre post : List FetchItem) (pushErr : Option String),
        Upload marshalSize csvFail chunkSize
            (pre ++ FetchItem.record data :: post) pushErr =
          Upload marshalSize csvFail chunkSize (pre ++ post) pushErr := by
  have h1 : (validateRequiredFields data).isSome = true := by
    rw [Option.isSome_iff_ne_none]
    intro hnone
    have hx := List.findSome?_eq_none_iff.mp hnone field hfield
    rcases hbad with hb | hb <;> rw [hb] at hx <;> exact Option.noConfusion hx
  refine ⟨h1, ?_⟩
  intro ms cf cs pre post pushErr
  obtain ⟨e, he⟩ := Option.isSome_iff_exists.mp h1
  have hskip : ∀ st : UploadState, processRecord ms cf cs st data = st := by
    intro st
    unfold processRecord
    rw [he]
  have hloop :
      uploadLoop ms cf cs (pre ++ FetchItem.record data :: post) initUploadState =
        uploadLoop ms cf cs (pre ++ post) initUploadState := by
    unfold uploadLoop
    rw [List.foldl_append, List.foldl_append, List.foldl_cons]
    show List.foldl _ (processRecord ms cf cs _ data) post = _
    rw [hskip]
  unfold Upload
  rw [hloop]

def msZero : List (String × Value) → Nat := fun _ => 0

def cfNone : List (String × Value) → Bool := fun _ => false

/-- A record with every envelope field except `$DELETED`. -/
def dataMissingDeleted : List (String × Value) :=
  [("$TYPE", Value.vstr "Well"), ("DOCUMENT_ID", Value.vstr "W1"),
   ("$VERSION", Value.vnum 1), ("$AUTHOR_ID", Value.vstr "A1"),
   ("$DATE", Value.vstr "2024-01-01T00:00:00Z")]

/-- Witness for C4: a record missing `$DELETED` fails validation and is
excluded from the batch without any error. -/
theorem C4_witness :
    (validateRequiredFields dataMissingDeleted).isSome = true
    ∧ Upload msZero cfNone 5 [FetchItem.record dataMissingDeleted] none =
        Upload msZero cfNone 5 [] none :=
  ⟨(C4_envelope_validation "$DELETED" dataMissingDeleted (by decide) (Or.inl rfl)).1,
   (C4_envelope_validation "$DELETED" dataMissingDeleted (by decide)
      (Or.inl rfl)).2 msZero cfNone 5 [] [] none⟩

theorem processRecord_fold_eq (ms : List (String × Value) → Nat)
    (cf : List (String × Value) → Bool) (cs : Nat) (st : UploadStats)
    (d : List (String × Value)) :
    (chunkDocument cs d).foldl (fun s ch => processChunk (cf ch) s (ms ch)) st =
      processChunks st ((chunkDocument cs d).map (fun ch => (ms ch, cf ch))) := by
  rw [processChunks, List.foldl_map]

theorem uploadLoop_count (ms : List (String × Value) → Nat)
    (cf : List (String × Value) → Bool) (cs : Nat) :
    ∀ (items : List FetchItem) (st : UploadState),
      (uploadLoop ms cf cs items st).stats.documentsProcessed =
          st.stats.documentsProcessed + items.countP isProcessedRecord
      ∧ (uploadLoop ms cf cs items st).emptyBatch =
          (st.emptyBatch && decide (items.countP isProcessedRecord = 0)) := by
  intro items
  induction items with
  | nil => intro st; constructor <;> simp [uploadLoop]
  | cons item rest ih =>
    intro st
    cases item with
    | readError m =>
      obtain ⟨i1, i2⟩ := ih st
      refine ⟨?_, ?_⟩ <;>
        simp only [uploadLoop, List.foldl_cons] at i1 i2 ⊢ <;>
        rw [List.countP_cons]
      · rw [i1]
        simp [isProcessedRecord]
      · rw [i2]
        simp [isProcessedRecord]
    | badJSON =>
      obtain ⟨i1, i2⟩ := ih st
      refine ⟨?_, ?_⟩ <;>
        simp only [uploadLoop, List.foldl_cons] at i1 i2 ⊢ <;>
        rw [List.countP_cons]
      · rw [i1]
        simp [isProcessedRecord]
      · rw [i2]
        simp [isProcessedRecord]
    | record d =>
      cases hv : validateRequiredFields d with
      | some e =>
        obtain ⟨i1, i2⟩ := ih st
        have hstep : processRecord ms cf cs st d = st := by
          unfold processRecord
          rw [hv]
        have hp : isProcessedRecord (FetchItem.record d) = false := by
          simp [isProcessedRecord, hv]
        refine ⟨?_, ?_⟩ <;>
          simp only [uploadLoop, List.foldl_cons] at i1 i2 ⊢ <;>
          rw [hstep, List.countP_cons, hp]
        · simpa using i1
        · simpa using i2
      | none =>
        have hp : isProcessedRecord (FetchItem.record d) = true := by
          simp [isProcessedRecord, hv]
        obtain ⟨i1, i2⟩ := ih (processRecord ms cf cs st d)
        have hdp : (processRecord ms cf cs st d).stats.documentsProcessed =
            st.stats.documentsProcessed + 1 := by
          unfold processRecord
          rw [hv]
          show ((chunkDocument cs d).foldl
              (fun s ch => processChunk (cf ch) s (ms ch)) st.stats).documentsProcessed + 1 =
            st.stats.documentsProcessed + 1
          rw [processRecord_fold_eq ms cf cs st.stats d,
            (processChunks_counts _ st.stats).2.2.2]
        have hemp : (processRecord ms cf cs st d).emptyBatch = false := by
          unfold processRecord
          rw [hv]
        refine ⟨?_, ?_⟩ <;>
          simp only [uploadLoop, List.foldl_cons] at i1 i2 ⊢ <;>
          rw [List.countP_cons, hp]
        · rw [i1, hdp]
          simp only [eq_self_iff_true, if_true]
          omega
        · rw [i2, hemp]
          simp

/-- C10: the document count returned by `Upload` equals the number of
non-nil records that passed envelope validation, for every
serialization-size and CSV-failure oracle (so it is independent of
per-chunk outcomes); when no record was processed, `Upload` returns
count 0 with no error and skips the warehouse push; and a concrete
valid document whose only chunk is rejected for size still counts. -/
theorem C10_document_count (marshalSize : List (String × Value) → Nat)
    (csvFail : List (String × Value) → Bool) (chunkSize : Nat)
    (items : List FetchItem) (pushErr : Option String) :
    (uploadLoop marshalSize csvFail chunkSize items initUploadState).stats.documentsProcessed =
        items.countP isProcessedRecord
    ∧ (items.countP isProcessedRecord = 0 →
        Upload marshalSize csvFail chunkSize items pushErr = UploadResult.ok 0 false)
    ∧ Upload (fun _ => 16 * 1024 * 1024) (fun _ => false) 10000
        [FetchItem.record
          [("$TYPE", Value.vstr "Well"), ("DOCUMENT_ID", Value.vstr "W1"),
           ("$VERSION", Value.vnum 1), ("$AUTHOR_ID", Value.vstr "A1"),
           ("$DATE", Value.vstr "2024-01-01T00:00:00Z"),
           ("$DELETED", Value.vbool false)]] none = UploadResult.ok 1 true := by
  obtain ⟨u1, u2⟩ := uploadLoop_count marshalSize csvFail chunkSize items initUploadState
  refine ⟨?_, ?_, ?_⟩
  · rw [u1]
    simp [initUploadState, initStats]
  · intro hz
    simp only [Upload]
    rw [u1, u2, hz]
    simp [initUploadState, initStats]
  · decide

/-- Witness for C10: a batch with no processable record returns count 0
with no error and skips the warehouse push. -/
theorem C10_witness :
    Upload msZero cfNone 5 [FetchItem.badJSON] none = UploadResult.ok 0 false :=
  (C10_document_count msZero cfNone 5 [FetchItem.badJSON] none).2.1 (by decide)

/-! The replication loop of `main.go` (`fetchAndProcessDocuments`,
lines 146-254, and `sync`, lines 125-144).  The network and the
warehouse are external: one iteration is driven by a script of page
outcomes, each either a fetch failure (transport error or non-200
status) or a page carrying the result of `db.Upload`, the
`X-Sync-Highwater-Mark` header and the `X-Sync-Truncated` flag. -/

/-- One successfully fetched page: the outcome of `db.Upload` for its
records, the new cursor from the `X-Sync-Highwater-Mark` header, and
whether `X-Sync-Truncated` was (case-insensitively) different from
FALSE. -/
structure Page where
  uploadResult : Except String Nat
  highwaterMark : String
  truncated : Bool

/-- One round of the inner loop: either the fetch itself fails
(`client.Do` error or non-200 status, `main.go` lines 197-205) or a
page is received. -/
inductive PageFetch where
  | fetchError : String → PageFetch
  | page : Page → PageFetch

/-- Observable state threaded through one iteration: the content of the
`last_sync_date.txt` file (`none` = absent), the accumulated document
count, and the log of fetch requests issued, each recording the
`batch_date` of the iteration and the `since` cursor parameter used. -/
structure LoopState where
  file : Option String
  count : Nat
  calls : List (String × String)
deriving DecidableEq

/-- Result of `fetchAndProcessDocuments`: the returned document count,
a returned error (the Go function returns `(0, err)` in that case), or
the marker that the supplied script ended while the loop would have
fetched another page. -/
inductive FetchOutcome where
  | ok : Nat → FetchOutcome
  | err : String → FetchOutcome
  | outOfScript : FetchOutcome
deriving DecidableEq

/-- The inner page loop of `fetchAndProcessDocuments` (`main.go` lines
163-250): issue the fetch (recorded in `calls` with the constant
`batch_date` and the current `since` cursor); abort the iteration on a
fetch error; abort on an `Upload` error; otherwise store the
`X-Sync-Highwater-Mark` cursor via `saveLastSyncDate` (the `file`
component), add the count, and continue with the new cursor iff the
page was truncated. -/
def fetchLoop (batchDate : String) :
    List PageFetch → String → LoopState → FetchOutcome × LoopState
  | [], _, st => (FetchOutcome.outOfScript, st)
  | PageFetch.fetchError m :: _, since, st =>
      (FetchOutcome.err m, { st with calls := st.calls ++ [(batchDate, since)] })
  | PageFetch.page p :: rest, since, st =>
      let st1 : LoopState := { st with calls := st.calls ++ [(batchDate, since)] }
      match p.uploadResult with
      | Except.error e => (FetchOutcome.err e, st1)
      | Except.ok c =>
          let st2 : LoopState :=
            { st1 with file := some p.highwaterMark, count := st1.count + c }
          if p.truncated then fetchLoop batchDate rest p.highwaterMark st2
          else (FetchOutcome.ok st2.count, st2)

/-- `fetchAndProcessDocuments` (`main.go` lines 146-254): load the
persisted cursor (`loadLastSyncDate` trims whitespace and returns the
empty string when the file is absent), substitute the
beginning-of-time cursor when forcing or when none is stored, then run
the page loop. -/
def fetchAndProcessDocuments (force : Bool) (batchDate : String)
    (pages : List PageFetch) (file : Option String) : FetchOutcome × LoopState :=
  let lastSyncDate := ((file.map String.trim).getD "")
  let since := if force ∨ lastSyncDate = "" then "1900-01-01" else lastSyncDate
  fetchLoop batchDate pages since { file := file, count := 0, calls := [] }

/-- Result of the `sync` driver: `finished ret` when the loop exits and
`sync` returns `ret` to the CLI (the Go code always returns nil), or
`scriptEnded` when the supplied script of iteration outcomes ends while
the loop would keep running. -/
inductive SyncOutcome where
  | finished : Option String → SyncOutcome
  | scriptEnded : SyncOutcome
deriving DecidableEq

/-- The `sync` driver (`main.go` lines 125-144), over a script of
iteration outcomes (each the error-or-count result of one
`fetchAndProcessDocuments` call): log the iteration result, break when
`wait` is zero or in one-shot mode, and otherwise sleep and loop.  The
returned option is the value `sync` returns to its caller. -/
def syncLoop (wait : Nat) (onetime : Bool) :
    List (Except String Nat) → SyncOutcome × List String
  | [] => (SyncOutcome.scriptEnded, [])
  | r :: rest =>
    let logs : List String :=
      "Starting Sync" ::
        (match r with
         | Except.error e => ["Sync Failed: " ++ e]
         | Except.ok 0 => ["Sync Complete: No Updated Documents"]
         | Except.ok n => ["Sync Complete: " ++ toString n ++ " Updated Documents"])
    if wait = 0 ∨ onetime = true then (SyncOutcome.finished none, logs)
    else
      let next := syncLoop wait onetime rest
      (next.1, (logs ++ ["Sleeping " ++ toString wait ++ " seconds"]) ++ next.2)

theorem fetchLoop_page_ok (batchDate : String) (p : Page) (rest : List PageFetch)
    (since : String) (st : LoopState) (c : Nat)
    (hup : p.uploadResult = Except.ok c) :
    fetchLoop batchDate (PageFetch.page p :: rest) since st =
      if p.truncated then
        fetchLoop batchDate rest p.highwaterMark
          { file := some p.highwaterMark, count := st.count + c,
            calls := st.calls ++ [(batchDate, since)] }
      else
        (FetchOutcome.ok (st.count + c),
         { file := some p.highwaterMark, count := st.count + c,
           calls := st.calls ++ [(batchDate, since)] }) := by
  rw [fetchLoop, hup]

/-- C1: within an iteration, the persisted cursor file is written only
by a successful `Upload`: whenever the file content after the loop
differs from the content before, it is the highwater mark of some page
of the script whose `Upload` returned without error; and when the next
page's `Upload` returns an error, the whole iteration aborts with that
error and the file exactly as it was (state unchanged on error). -/
theorem C1_cursor_after_upload :
    (∀ (batchDate : String) (pages : List PageFetch) (since : String)
        (st : LoopState),
      (fetchLoop batchDate pages since st).2.file ≠ st.file →
        ∃ p c, PageFetch.page p ∈ pages ∧ p.uploadResult = Except.ok c ∧
          (fetchLoop batchDate pages since st).2.file = some p.highwaterMark)
    ∧ (∀ (batchDate : String) (p : Page) (rest : List PageFetch)
        (since : String) (st : LoopState) (e : String),
        p.uploadResult = Except.error e →
        fetchLoop batchDate (PageFetch.page p :: rest) since st =
          (FetchOutcome.err e,
           { st with calls := st.calls ++ [(batchDate, since)] })) := by
  constructor
  · intro batchDate pages
    induction pages with
    | nil => intro since st h; exact absurd rfl h
    | cons pf rest ih =>
      intro since st h
      cases pf with
      | fetchError m => exact absurd rfl h
      | page p =>
        cases hup : p.uploadResult with
        | error e =>
          rw [fetchLoop] at h ⊢
          rw [hup] at h ⊢
          exact absurd rfl h
        | ok c =>
          rw [fetchLoop_page_ok batchDate p rest since st c hup] at h ⊢
          by_cases htr : p.truncated
          · rw [if_pos htr] at h ⊢
            by_cases hsame :
                (fetchLoop batchDate rest p.highwaterMark
                  { file := some p.highwaterMark, count := st.count + c,
                    calls := st.calls ++ [(batchDate, since)] }).2.file =
                  some p.highwaterMark
            · exact ⟨p, c, List.mem_cons_self _ _, hup, hsame⟩
            · obtain ⟨q, cq, hq, hqu, hqf⟩ := ih p.highwaterMark _ hsame
              exact ⟨q, cq, List.mem_cons_of_mem _ hq, hqu, hqf⟩
          · rw [if_neg htr] at h ⊢
            exact ⟨p, c, List.mem_cons_self _ _, hup, rfl⟩
  · intro batchDate p rest since st e hup
    rw [fetchLoop, hup]

/-- Witness for C1 at a concrete failing page: the iteration aborts
with the upload error and the cursor file still absent. -/
theorem C1_witness :
    fetchLoop "BD"
        [PageFetch.page { uploadResult := Except.error "boom",
                          highwaterMark := "2024-05-01", truncated := false }]
        "1900-01-01" { file := none, count := 0, calls := [] } =
      (FetchOutcome.err "boom",
       { file := none, count := 0, calls := [("BD", "1900-01-01")] }) :=
  C1_cursor_after_upload.2 "BD"
    { uploadResult := Except.error "boom", highwaterMark := "2024-05-01",
      truncated := false }
    [] "1900-01-01" { file := none, count := 0, calls := [] } "boom" rfl

/-- C9: after the loop processes a page whose truncation flag is false,
the iteration terminates (the rest of the script is never consumed) and
the persisted cursor file equals the cursor reported with that final
page; when the flag is true, the loop fetches the next page within the
same iteration, with the same `batch_date` and the newly reported
cursor as the `since` parameter. -/
theorem C9_truncation (batchDate : String) (p : Page) (rest : List PageFetch)
    (since : String) (st : LoopState) (c : Nat)
    (hup : p.uploadResult = Except.ok c) :
    (p.truncated = false →
      fetchLoop batchDate (PageFetch.page p :: rest) since st =
        (FetchOutcome.ok (st.count + c),
         { file := some p.highwaterMark, count := st.count + c,
           calls := st.calls ++ [(batchDate, since)] }))
    ∧ (p.truncated = true →
      fetchLoop batchDate (PageFetch.page p :: rest) since st =
        fetchLoop batchDate rest p.highwaterMark
          { file := some p.highwaterMark, count := st.count + c,
            calls := st.calls ++ [(batchDate, since)] }) := by
  constructor
  · intro htr
    rw [fetchLoop_page_ok batchDate p rest since st c hup, htr]
    simp
  · intro htr
    rw [fetchLoop_page_ok batchDate p rest since st c hup, htr]
    simp

/-- Witness for C9 at a concrete non-truncated page: the iteration ends
and the file holds exactly the page-reported cursor. -/
theorem C9_witness :
    fetchLoop "BD"
        [PageFetch.page { uploadResult := Except.ok 3,
                          highwaterMark := "2024-05-01", truncated := false }]
        "1900-01-01" { file := none, count := 0, calls := [] } =
      (FetchOutcome.ok 3,
       { file := some "2024-05-01", count := 3,
         calls := [("BD", "1900-01-01")] }) :=
  (C9_truncation "BD"
    { uploadResult := Except.ok 3, highwaterMark := "2024-05-01",
      truncated := false }
    [] "1900-01-01" { file := none, count := 0, calls := [] } 3 rfl).1 rfl

/-- C8 counterexample: in one-shot (push) mode a failed iteration is
only logged; `sync` still returns nil, so the process exits zero,
contradicting the claim that the first fatal error is surfaced to the
caller as a non-zero exit. -/
theorem C8_counterexample :
    syncLoop 600 true [Except.error "connection refused"] =
      (SyncOutcome.finished none,
       ["Starting Sync", "Sync Failed: connection refused"]) := rfl

/-- C8 (amended): a transport or non-success fetch response aborts the
entire iteration with an error and no state change; in continuous mode
(nonzero wait) the driver logs the failure and keeps running into the
next sleep and iteration; in one-shot mode the driver also logs the
failure but swallows it, returning nil to the caller (exit code zero)
instead of surfacing it. -/
theorem C8_fetch_failures (batchDate m : String) (rest : List PageFetch)
    (since : String) (st : LoopState) (wait : Nat) (e : String)
    (iters : List (Except String Nat)) :
    fetchLoop batchDate (PageFetch.fetchError m :: rest) since st =
      (FetchOutcome.err m, { st with calls := st.calls ++ [(batchDate, since)] })
    ∧ (wait ≠ 0 →
        syncLoop wait false (Except.error e :: iters) =
          ((syncLoop wait false iters).1,
           ("Starting Sync" :: ["Sync Failed: " ++ e] ++
             ["Sleeping " ++ toString wait ++ " seconds"]) ++
             (syncLoop wait false iters).2))
    ∧ syncLoop wait true (Except.error e :: iters) =
        (SyncOutcome.finished none, ["Starting Sync", "Sync Failed: " ++ e]) := by
  refine ⟨rfl, ?_, ?_⟩
  · intro hw
    rw [syncLoop, if_neg]
    rintro (h | h)
    · exact hw h
    · exact Bool.false_ne_true h
  · rw [syncLoop, if_pos]
    exact Or.inr rfl

/-- Witness for the amended C8: a failing iteration in continuous mode
is logged and the driver proceeds to the rest of the script. -/
theorem C8_witness :
    syncLoop 600 false [Except.error "boom"] =
      ((syncLoop 600 false []).1,
       ("Starting Sync" :: ["Sync Failed: boom"] ++
         ["Sleeping " ++ toString (600 : Nat) ++ " seconds"]) ++
         (syncLoop 600 false []).2) :=
  (C8_fetch_failures "BD" "m" [] "s" { file := none, count := 0, calls := [] }
    600 "boom" []).2.1 (by decide)

/-! The schema view compiler (`snowflake.go`, `create_view`, lines
528-592) and the inactive-field pruning (`schema.go`,
`filterInactiveDocumentFields`, lines 116-139). -/

/-- A document schema (Go `execute.DocumentSchema`, a map from field
name to `FieldMetadata`), embedded as an association structure in
iteration order.  Each entry carries the metadata consulted by the code
under verification: `ACTIVE`, `TYPE` (a string; Lean keyword avoided as
`ftype`), the nested `RECORD_TYPE` and the referenced `DOCUMENT_TYPE`.
The remaining `FieldMetadata` fields (`NAME`, `NULLABLE`, `SIZE`,
`FORMULA`, `DATE_UNZONED`) are never read by `create_view` or
`filterInactiveDocumentFields`. -/
inductive Schema where
  | nil : Schema
  | cons (name : String) (active : Bool) (ftype : String)
      (recordType : Schema) (documentType : Option String) (rest : Schema) :
      Schema

/-- One compiled relational view: the executed
`create or replace secure view` statement of `create_view`
(`snowflake.go` lines 576-587), split into its ingredients: view name,
document type of the `where type=...` filter, projected columns in
order, the `LATERAL FLATTEN` clause (empty when none), and whether the
`and chunk=0` restriction is appended (exactly when there is no flatten
clause). -/
structure ViewDef where
  name : String
  docType : String
  columns : List String
  flatten : String
  chunkZeroOnly : Bool
deriving DecidableEq

/-- Go `strings.HasPrefix(s, pre)` (also `String.startsWith`), defined
over character lists so that it computes inside the kernel. -/
def strStartsWith (s pre : String) : Bool :=
  pre.data.isPrefixOf s.data

/-- The fixed part of one view emitted by `create_view` (`snowflake.go`
lines 530-544 and 576-587): base column `id as DOCUMENT_ID`, the
`LISTITEM_ID` column when the root path lies inside a list item
(`strings.HasPrefix(root, "value:")`), the four envelope columns for
root views (`parentTable == ""`), then the dispatched columns. -/
def assembleView (docType tableName parentTable root flatten : String)
    (cols : List String) : ViewDef :=
  let base := ["id as DOCUMENT_ID"]
  let base := if strStartsWith root "value:" then
      base ++ ["value:LISTITEM_ID::string as LISTITEM_ID"] else base
  let base := if parentTable = "" then
      base ++ ["deleted as \"_DELETED\"", "author as \"_AUTHOR\"",
               "version as \"_VERSION\"", "date as \"_DATE\""] else base
  { name := tableName, docType := docType, columns := base ++ cols,
    flatten := flatten, chunkZeroOnly := decide (flatten = "") }

/-- The field-dispatch loop of `create_view` (`snowflake.go` lines
546-574): for each field other than `DOCUMENT_ID`, switch on its
declared type; scalar types append a projection column, `DOCUMENT`
appends a foreign-key-annotated column, `RECORD` recurses into a child
view with the extended root path, `RECORD LIST` recurses into a
flattened child view but only when the root path still lies under
`data` (`if !strings.HasPrefix(root, "data") { continue }` - the
lists-in-lists guard), and unknown types are skipped.  Returns the
columns of the current view and the child views in execution order
(each child's descendants before the child itself, children in field
order). -/
def cvFields (docType tableName : String) (root flatten : String) :
    Schema → List String × List ViewDef
  | Schema.nil => ([], [])
  | Schema.cons field active ftype recordType documentType rest =>
    let cv := cvFields docType tableName root flatten rest
    if field = "DOCUMENT_ID" then cv
    else
      match ftype with
      | "TEXT" | "GUID" | "UWI" =>
        ((root ++ ":" ++ field ++ "::string as " ++ field) :: cv.1, cv.2)
      | "INTEGER" =>
        ((root ++ ":" ++ field ++ "::int as " ++ field) :: cv.1, cv.2)
      | "DECIMAL" =>
        ((root ++ ":" ++ field ++ "::float as " ++ field) :: cv.1, cv.2)
      | "BOOLEAN" =>
        ((root ++ ":" ++ field ++ "::int as " ++ field) :: cv.1, cv.2)
      | "DATETIME" =>
        ((root ++ ":" ++ field ++ "::date as " ++ field) :: cv.1, cv.2)
      | "DOCUMENT" =>
        ((root ++ ":" ++ field ++ ":DOCUMENT_ID::string as " ++ field ++
          " /* References " ++ documentType.getD "" ++ ".DOCUMENT_ID */") ::
          cv.1, cv.2)
      | "RECORD" =>
        let ccv := cvFields docType (tableName ++ "_" ++ field)
          (root ++ ":" ++ field) flatten recordType
        (cv.1,
         (ccv.2 ++ [assembleView docType (tableName ++ "_" ++ field) tableName
            (root ++ ":" ++ field) flatten ccv.1]) ++ cv.2)
      | "RECORD LIST" =>
        if strStartsWith root "data" then
          let childFlatten :=
            ", LATERAL FLATTEN( INPUT => " ++ root ++ ":" ++ field ++ ")"
          let ccv := cvFields docType (tableName ++ "_" ++ field)
            "value" childFlatten recordType
          (cv.1,
           (ccv.2 ++ [assembleView docType (tableName ++ "_" ++ field) tableName
              "value" childFlatten ccv.1]) ++ cv.2)
        else cv
      | _ => cv

/-- `create_view` (`snowflake.go` lines 528-592): compile one schema
into its tree of views; the returned list is in `db.Exec` order (the
children created during the field loop first, then the view itself). -/
def create_view (docType tableName parentTable : String) (record : Schema)
    (root flatten : String) : List ViewDef :=
  let cv := cvFields docType tableName root flatten record
  cv.2 ++ [assembleView docType tableName parentTable root flatten cv.1]

/-- The per-type loop of `CreateViews` (`snowflake.go` lines 506-509):
`create_view(db, key, key, "", value, "data", "")` for each document
type. -/
def CreateViews (root : List (String × Schema)) : List ViewDef :=
  (root.map (fun kv => create_view kv.1 kv.1 "" kv.2 "data" "")).flatten

/-- `filterInactiveDocumentFields` (`schema.go` lines 123-139): remove
inactive fields and recurse into the nested record type of the active
ones. -/
def filterInactiveDocumentFields : Schema → Schema
  | Schema.nil => Schema.nil
  | Schema.cons name active ftype recordType documentType rest =>
    if active = false then filterInactiveDocumentFields rest
    else Schema.cons name active ftype (filterInactiveDocumentFields recordType)
      documentType (filterInactiveDocumentFields rest)

/-- Whether every field of a schema, at every nesting depth, is
active. -/
def Schema.allActive : Schema → Bool
  | Schema.nil => true
  | Schema.cons _ active _ recordType _ rest =>
    active && recordType.allActive && rest.allActive

/-- Schema with a RECORD LIST (`L`) nested inside a RECORD (`R`): the
enclosing context of `L` is not the document root, but also not inside
a list expansion. -/
def schemaC6bad : Schema :=
  Schema.cons "R" true "RECORD"
    (Schema.cons "L" true "RECORD LIST"
      (Schema.cons "X" true "TEXT" Schema.nil none Schema.nil)
      none Schema.nil)
    none Schema.nil

/-- C6 counterexample: a RECORD LIST field nested inside a RECORD - an
enclosing context that is not the document root - is not skipped: the
compiler emits the flattened child view `T_R_L` for it, contradicting
the claim that recursing into a RECORD LIST is only legal when the
enclosing context is the document root. -/
theorem C6_counterexample :
    ∃ v ∈ create_view "T" "T" "" schemaC6bad "data" "",
      v.name = "T_R_L" ∧ v.flatten ≠ "" := by decide

/-- Schema `{CHILD: RECORD LIST containing GRANDCHILD: RECORD LIST}`
from the spec's compiler example. -/
def schemaC6nested : Schema :=
  Schema.cons "CHILD" true "RECORD LIST"
    (Schema.cons "GRANDCHILD" true "RECORD LIST"
      (Schema.cons "X" true "TEXT" Schema.nil none Schema.nil) none Schema.nil)
    none Schema.nil

/-- C6 (amended): recursing into a RECORD LIST field is legal exactly
when the current root path still lies under the document data root,
i.e. not inside a list expansion (where the root is reset to the
item-local `value`); inside a list expansion the field is silently
skipped.  Consequently the schema `{CHILD: RECORD LIST containing
GRANDCHILD: RECORD LIST}` compiles GRANDCHILD out of the plan entirely
while CHILD itself gets a flattened child view. -/
theorem C6_record_list_guard :
    (∀ (docType tableName root flatten field : String) (active : Bool)
        (recordType : Schema) (documentType : Option String) (rest : Schema),
      strStartsWith root "data" = false →
      cvFields docType tableName root flatten
          (Schema.cons field active "RECORD LIST" recordType documentType rest) =
        cvFields docType tableName root flatten rest)
    ∧ ((create_view "T" "T" "" schemaC6nested "data" "").map ViewDef.name =
        ["T_CHILD", "T"])
    ∧ (∃ v ∈ create_view "T" "T" "" schemaC6nested "data" "",
        v.name = "T_CHILD" ∧ v.flatten ≠ "") := by
  refine ⟨?_, by decide, by decide⟩
  intro docType tableName root flatten field active recordType documentType rest h
  by_cases hf : field = "DOCUMENT_ID"
  · simp [cvFields, hf]
  · simp [cvFields, hf, h]

/-- Witness for the amended C6 at a concrete in-list context: inside a
list expansion (root `value`) a RECORD LIST field contributes neither
columns nor views. -/
theorem C6_witness :
    cvFields "T" "T_CHILD" "value" ", LATERAL FLATTEN( INPUT => data:CHILD)"
        (Schema.cons "GRANDCHILD" true "RECORD LIST"
          (Schema.cons "X" true "TEXT" Schema.nil none Schema.nil)
          none Schema.nil) =
      cvFields "T" "T_CHILD" "value" ", LATERAL FLATTEN( INPUT => data:CHILD)"
        Schema.nil :=
  C6_record_list_guard.1 "T" "T_CHILD" "value"
    ", LATERAL FLATTEN( INPUT => data:CHILD)" "GRANDCHILD" true
    (Schema.cons "X" true "TEXT" Schema.nil none Schema.nil) none Schema.nil
    (by decide)

/-- Schema with an active TEXT field `NAME`, an inactive TEXT field
`SECRET` and an inactive RECORD field `SECRETREC`. -/
def exSchema7 : Schema :=
  Schema.cons "NAME" true "TEXT" Schema.nil none
    (Schema.cons "SECRET" false "TEXT" Schema.nil none
      (Schema.cons "SECRETREC" false "RECORD"
        (Schema.cons "X" true "TEXT" Schema.nil none Schema.nil)
        none Schema.nil))

/-- C7 counterexample: `create_view` itself never consults `Active`:
compiling a schema containing the inactive TEXT field `SECRET` and the
inactive RECORD field `SECRETREC` emits both the projection column for
`SECRET` and the child view for `SECRETREC`, contradicting the claim
that the compiler drops inactive fields. -/
theorem C7_counterexample :
    (∃ v ∈ create_view "WELL" "WELL" "" exSchema7 "data" "",
      v.name = "WELL" ∧ "data:SECRET::string as SECRET" ∈ v.columns)
    ∧ ∃ v ∈ create_view "WELL" "WELL" "" exSchema7 "data" "",
        v.name = "WELL_SECRETREC" := by decide

/-- C7 (amended): the view compiler emits columns and child views for
inactive fields too; inactive fields are dropped - at every nesting
depth - only by the separate pre-filtering step
`filterInactiveDocumentFields` (applied when hide-inactive is
configured), after which every remaining field is active, and the
compiled plan of the filtered example schema carries neither the
inactive column nor the inactive child view. -/
theorem C7_inactive_filter :
    (∀ s : Schema, (filterInactiveDocumentFields s).allActive = true)
    ∧ create_view "WELL" "WELL" ""
          (filterInactiveDocumentFields exSchema7) "data" "" =
        [{ name := "WELL", docType := "WELL",
           columns := ["id as DOCUMENT_ID", "deleted as \"_DELETED\"",
             "author as \"_AUTHOR\"", "version as \"_VERSION\"",
             "date as \"_DATE\"", "data:NAME::string as NAME"],
           flatten := "", chunkZeroOnly := true }] := by
  refine ⟨?_, by decide⟩
  intro s
  induction s with
  | nil => rfl
  | cons name active ftype recordType documentType rest ihr ihrest =>
    by_cases ha : active = false
    · simp [filterInactiveDocumentFields, ha, ihrest]
    · rw [Bool.not_eq_false] at ha
      simp [filterInactiveDocumentFields, ha, Schema.allActive, ihr, ihrest]

/-- Witness for the amended C7 at the example schema: the filtered
schema is entirely active. -/
theorem C7_witness :
    (filterInactiveDocumentFields exSchema7).allActive = true :=
  C7_inactive_filter.1 exSchema7

end ExecuteSync
